import Mathlib

/-
Shallow embedding of the migration-dashboard repository's core logic
(src/source/bastion-peer/bastion-client.py and src/source/ocp-peer/app.py),
together with theorems settling the frozen claims about it.

Modelling conventions, stated once here:

* Timestamps.  The code exchanges ISO-8601 timestamp strings produced by
  now_iso() and parses them with datetime.fromisoformat.  Python datetimes
  have exact microsecond resolution, so an instant is modelled as an
  integer number of ticks (microseconds).  A timestamp *string* is
  modelled by the inductive TStr below: the empty string (falsy in
  Python), a well-formed timezone-aware ISO string identified by its
  parsed instant plus a spelling index (distinct strings can denote the
  same instant; spelling 0 is the canonical datetime.isoformat rendering,
  which is lexicographically monotone in the instant), or a string whose
  parse or datetime arithmetic raises (ill-formed, or timezone-naive so
  that comparison/subtraction against the aware now() raises TypeError).

* Durations.  The code stores duration_sec = round((end-start).total_seconds(), 2),
  a float with two decimal places.  Python's round is round-half-to-even.
  With tick arithmetic this value is exactly (an integer of hundredths of
  a second) / 100; the model stores that integer numerator in the field
  duration_cs, so duration_sec of the code equals duration_cs / 100.
  Float representation error is idealised away (exact real arithmetic),
  as the spec itself does.

* JSON records.  History entries are dicts; dict.get of a missing key is
  None, modelled by Option.  A JSON null value for a key is likewise
  modelled as the absent Option (the code distinguishes them only in
  setdefault, in a way no claim depends on).  Field values are modelled
  at the schema's types (strings, timestamp strings, the rounded
  duration); ill-typed remote values are out of the model's scope.

* Sorting.  Python's list.sort(key=..., reverse=True) is a stable sort by
  key, descending.  Any two stable sorts agree extensionally, so it is
  modelled by Mathlib's stable insertionSort with the descending-by-key
  relation.  The sort key is the raw end_time *string* (or "" when
  absent/falsy); the string order is modelled by strLeB, which is
  faithful on the canonical spellings the system itself produces and
  fixes an arbitrary total order elsewhere.

* Concurrency.  Handlers and poll cycles run without suspension points
  inside their state mutations (spec section 5), so each is modelled as a
  pure state transition.  asyncio.create_task is modelled by returning
  the spawned task as a value next to the response, without its result
  feeding back.
-/

namespace MD

/-- Model of a timestamp string (see the header comment). -/
inductive TStr
  | empty
  | iso (t : ℤ) (spelling : ℕ)
  | malformed (id : ℕ)
deriving DecidableEq

/-- Model of datetime.fromisoformat followed by any arithmetic against an
aware datetime: yields the parsed instant, or nothing when the string is
empty, ill-formed, or naive (in the code those paths raise and are caught). -/
def fromisoformat : TStr → Option ℤ
  | .iso t _ => some t
  | _ => none

/-- Python's x or y on optional strings: y when x is None or the falsy "". -/
def truthyOr : Option TStr → Option TStr → Option TStr
  | none, b => b
  | some .empty, b => b
  | some a, _ => some a

/-- Round half to even given the floor quotient q and remainder r of a
division by 10000 (so the value being rounded is q + r/10000). -/
def roundHalfEvenQR (q r : ℤ) : ℤ :=
  if r < 5000 then q
  else if 5000 < r then q + 1
  else if q % 2 = 0 then q else q + 1

/-- Round half to even of micros / 10000: the exact integer of hundredths
of a second that Python's round((end-start).total_seconds(), 2) stores
(times 100), where micros is the tick difference end - start. -/
def pyRound2Cs (micros : ℤ) : ℤ :=
  roundHalfEvenQR (Int.fdiv micros 10000) (micros - 10000 * Int.fdiv micros 10000)

/-- One history entry (an OutageRecord dict).  duration_cs is the stored
duration_sec times 100 (see the header comment). -/
structure Event where
  name : Option String
  protocol : Option String
  start_time : Option TStr
  end_time : Option TStr
  duration_cs : Option ℤ
  source : Option String
  reporter : Option String
deriving DecidableEq

/-- The six-tuple (name, protocol, start_time, end_time, source, reporter)
built via dict.get in poll_peer_status_task (bastion-client.py 220-228),
as a structure so that tuple equality is decidable. -/
structure Key where
  name : Option String
  protocol : Option String
  start_time : Option TStr
  end_time : Option TStr
  source : Option String
  reporter : Option String
deriving DecidableEq

/-- The dedup key of a history entry. -/
def compositeKey (ev : Event) : Key :=
  ⟨ev.name, ev.protocol, ev.start_time, ev.end_time, ev.source, ev.reporter⟩

/-- The sort key h.get("end_time") or "" of the reconciler's re-sort
(bastion-client.py line 233): the end_time string, or "" when the key is
absent or its value falsy. -/
def sortKey (ev : Event) : TStr :=
  match ev.end_time with
  | none => .empty
  | some .empty => .empty
  | some t => t

/-- First component of the string-order key: "" sorts before every
nonempty string. -/
def TStr.k1 : TStr → ℕ
  | .empty => 0
  | .iso _ _ => 1
  | .malformed _ => 2

/-- Second component of the string-order key. -/
def TStr.k2 : TStr → ℤ
  | .empty => 0
  | .iso t _ => t
  | .malformed n => (n : ℤ)

/-- Third component of the string-order key. -/
def TStr.k3 : TStr → ℕ
  | .empty => 0
  | .iso _ i => i
  | .malformed _ => 0

/-- Model of Python string ≤ on timestamp strings: lexicographic in
(k1, k2, k3).  The empty string is minimal, and canonical ISO spellings
(spelling 0) compare by their instant, exactly as the fixed-format
isoformat strings do; the relative order of non-canonical or ill-formed
strings is an arbitrary fixed total order, which no theorem relies on. -/
def strLeB (a b : TStr) : Bool :=
  decide (a.k1 < b.k1 ∨ (a.k1 = b.k1 ∧ (a.k2 < b.k2 ∨ (a.k2 = b.k2 ∧ a.k3 ≤ b.k3))))

/-- Descending-by-sort-key order between events, as the comparator of the
reconciler's sort(key=..., reverse=True). -/
def descRel (a b : Event) : Prop :=
  strLeB (sortKey b) (sortKey a) = true

instance : DecidableRel descRel := fun a b =>
  inferInstanceAs (Decidable (strLeB (sortKey b) (sortKey a) = true))

/-- Model of ev.setdefault("source", "pod") (bastion-client.py line 216). -/
def defaultSource (ev : Event) : Event :=
  { ev with source := some (ev.source.getD "pod") }

/-- Model of _is_after_cutoff (bastion-client.py lines 110-121).  The
cutoff argument is the global HISTORY_IGNORE_BEFORE (None or a string;
the falsy "" also takes the early-true branch).  Any exception inside the
try block (parse failure of either string, or a naive/aware comparison)
returns True. -/
def isAfterCutoff (cutoff : Option TStr) (ev : Event) : Bool :=
  match cutoff with
  | none => true
  | some .empty => true
  | some c =>
    match truthyOr ev.end_time ev.start_time with
    | none => true
    | some .empty => true
    | some et =>
      match fromisoformat et, fromisoformat c with
      | some te, some tc => decide (tc ≤ te)
      | _, _ => true

/-- Model of log_disconnection_event (bastion-client.py lines 95-108):
parse the start string (on failure the except branch leaves history
unchanged), build the record with the canonical isoformat renderings and
the rounded duration, insert at the front, truncate to MAX_HISTORY. -/
def log_disconnection_event (maxH : ℕ) (history : List Event)
    (name proto : String) (start_time : TStr) (now : ℤ) (source : String) : List Event :=
  match fromisoformat start_time with
  | none => history
  | some t0 =>
    ({ name := some name, protocol := some proto,
       start_time := some (.iso t0 0), end_time := some (.iso now 0),
       duration_cs := some (pyRound2Cs (now - t0)),
       source := some source, reporter := none } :: history).take maxH

/-- Model of record_outage (app.py lines 83-97): as the bastion variant,
but source "pod", reporter POD_NAME, and the constant MAX_HISTORY = 200. -/
def record_outage (history : List Event) (target proto : String)
    (start_time : TStr) (now : ℤ) (pod : String) : List Event :=
  match fromisoformat start_time with
  | none => history
  | some t0 =>
    ({ name := some target, protocol := some proto,
       start_time := some (.iso t0 0), end_time := some (.iso now 0),
       duration_cs := some (pyRound2Cs (now - t0)),
       source := some "pod", reporter := some pod } :: history).take 200

/-- The reconciler's re-sort (bastion-client.py line 233): stable sort by
the end_time-string key, descending. -/
def sortHistory (l : List Event) : List Event :=
  l.insertionSort descRel

/-- The local variable filtered of the merge block (bastion-client.py
lines 214-218): every incoming record gets setdefault("source", "pod"),
and those passing _is_after_cutoff are kept. -/
def filteredBatch (cutoff : Option TStr) (peer_hist : List Event) : List Event :=
  (peer_hist.map defaultSource).filter (fun ev => isAfterCutoff cutoff ev)

/-- The local variable new_items of the merge block (bastion-client.py
lines 220-230): records of filtered whose composite key is not in the
known set, which is computed once from the pre-merge history (so records
inside one batch are not checked against each other). -/
def novelItems (cutoff : Option TStr) (history peer_hist : List Event) : List Event :=
  (filteredBatch cutoff peer_hist).filter
    (fun ev => ¬ compositeKey ev ∈ history.map compositeKey)

/-- Model of the /history merge block of poll_peer_status_task
(bastion-client.py lines 212-234): when filtered is nonempty and novel
records exist, prepend them, stable-sort descending by the end_time
string, and truncate to MAX_HISTORY; otherwise the history is untouched. -/
def mergePeerHistory (maxH : ℕ) (cutoff : Option TStr)
    (history : List Event) (peer_hist : List Event) : List Event :=
  if (filteredBatch cutoff peer_hist).isEmpty then history
  else if (novelItems cutoff history peer_hist).isEmpty then history
  else (sortHistory (novelItems cutoff history peer_hist ++ history)).take maxH

/-- Python l[-n:] for n the constant MAX_HISTORY (app.py line 68). -/
def sliceLastN (l : List Event) (n : ℕ) : List Event :=
  if n = 0 then l else l.drop (l.length - n)

/-- A request reaching the peer's handle_http (app.py lines 54-70), after
the request-line parsing, which is transport framing outside the core. -/
inductive PeerReq
  | clearHistory
  | getStatus
  | getHistory
  | other
deriving DecidableEq

/-- The body of the peer's HTTP response, at the model's granularity. -/
inductive PeerResp
  | clearOk
  | statusDoc
  | historyDoc (hist : List Event)
  | plainOk
deriving DecidableEq

/-- Model of handle_http (app.py lines 54-80): the new HISTORY plus the
response body.  POST /admin/clear_history empties HISTORY; GET /history
serves HISTORY[-MAX_HISTORY:]; other paths leave HISTORY untouched. -/
def peer_handle (history : List Event) : PeerReq → List Event × PeerResp
  | .clearHistory => ([], .clearOk)
  | .getStatus => (history, .statusDoc)
  | .getHistory => (history, .historyDoc (sliceLastN history 200))
  | .other => (history, .plainOk)

/-- One entry of STATE["internal_status"]: a fetched snapshot document
(opaque to the core) or the error placeholder written on a failed fetch
(bastion-client.py line 207). -/
inductive StatusDoc
  | payload (doc : ℕ)
  | errPlaceholder (err url : String)
deriving DecidableEq

/-- Outcome of one network fetch, as the reconciler sees it: the decoded
value, or the exception text of any failure on that path. -/
inductive FetchResult (α : Type)
  | ok (val : α)
  | fail (err : String)
deriving DecidableEq

/-- The bastion's process-wide mutable state relevant to the claims:
STATE["history"], HISTORY_IGNORE_BEFORE, and STATE["internal_status"]
(as a map from peer name). -/
structure BastionState where
  history : List Event
  cutoff : Option TStr
  internal_status : String → Option StatusDoc

/-- Model of one cycle of poll_peer_status_task (bastion-client.py lines
200-237): the /status fetch stores the document or the error placeholder
keyed by the peer's name; the /history fetch merges on success and does
nothing on failure (the bare except: pass). -/
def poll_cycle (s : BastionState) (peer url : String)
    (statusFetch : FetchResult ℕ) (historyFetch : FetchResult (List Event))
    (maxH : ℕ) : BastionState :=
  let st : StatusDoc :=
    match statusFetch with
    | .ok d => .payload d
    | .fail e => .errPlaceholder e url
  let hist :=
    match historyFetch with
    | .ok ph => mergePeerHistory maxH s.cutoff s.history ph
    | .fail _ => s.history
  { s with
    internal_status := fun k => if k = peer then some st else s.internal_status k,
    history := hist }

/-- A task spawned with asyncio.create_task and not awaited. -/
inductive BgTask
  | fanoutClear
deriving DecidableEq

/-- Model of handle_clear_history (bastion-client.py lines 396-403): set
the cutoff to now (overwriting), empty the history, spawn the peer
fan-out as a background task, and return the success body.  The response
value is produced without any dependence on the fan-out's outcome. -/
def handle_clear_history (s : BastionState) (now : ℤ) :
    BastionState × List BgTask × String :=
  ({ s with cutoff := some (.iso now 0), history := [] },
   [.fanoutClear], "history cleared")

/-- One step of the bastion http_client_task state machine
(bastion-client.py lines 124-141): conn is (status, since); on success,
log a disconnection event when recovering from error, then mark connected
with since = now; on failure, move to error with since = now only when not
already in error. -/
def bastion_http_step (maxH : ℕ) (name : String)
    (conn : String × TStr) (history : List Event)
    (outcome : Bool) (now : ℤ) : (String × TStr) × List Event :=
  if outcome then
    let h' := if conn.1 = "error"
      then log_disconnection_event maxH history name "HTTP" conn.2 now "bastion"
      else history
    (("connected", .iso now 0), h')
  else
    if conn.1 = "error" then (conn, history)
    else (("error", .iso now 0), history)

/-- A run of the bastion http prober over a list of (outcome, time) cycles. -/
def bastion_http_run (maxH : ℕ) (name : String)
    (init : (String × TStr) × List Event) :
    List (Bool × ℤ) → (String × TStr) × List Event
  | [] => init
  | (outcome, now) :: rest =>
    bastion_http_run maxH name
      (bastion_http_step maxH name init.1 init.2 outcome now) rest

/-- One outer-loop iteration of the ocp-peer ws_client_task (app.py lines
100-118).  Each iteration first takes start_time = now_iso() at tStart,
then either the connect raises at tFail (failEarly), or the connection is
established and the ping loop later raises at tFail (session). -/
inductive WsAttempt
  | failEarly (tStart tFail : ℤ)
  | session (tStart tFail : ℤ)
deriving DecidableEq

/-- State transition of one ws_client_task iteration: st is
connection_state[target]["ws"].  In the session case the state was set to
"connected" before the exception, so the disconnect branch always records;
in the failEarly case it records only when not already "disconnected".
record_outage is called with the iteration's start_time and the current
time, i.e. at the moment the outage BEGINS, with a duration spanning the
preceding session. -/
def ws_step (pod target : String) (st : String) (history : List Event) :
    WsAttempt → String × List Event
  | .failEarly tStart tFail =>
    if st = "disconnected" then (st, history)
    else ("disconnected", record_outage history target "WS" (.iso tStart 0) tFail pod)
  | .session tStart tFail =>
    ("disconnected", record_outage history target "WS" (.iso tStart 0) tFail pod)

/-- A run of the ocp-peer ws prober over a list of outer-loop iterations. -/
def ws_run (pod target : String) (init : String × List Event) :
    List WsAttempt → String × List Event
  | [] => init
  | a :: rest => ws_run pod target (ws_step pod target init.1 init.2 a) rest

/-- Peer-side HISTORY states reachable from process start by the two
operations that write it: record_outage and the clear handler. -/
inductive PeerReach : List Event → Prop
  | init : PeerReach []
  | record (h : List Event) (target proto : String) (st : TStr) (now : ℤ) (pod : String) :
      PeerReach h → PeerReach (record_outage h target proto st now pod)
  | clear (h : List Event) :
      PeerReach h → PeerReach (peer_handle h .clearHistory).1

/-- Unfolding of the string-order comparator. -/
theorem strLeB_iff (a b : TStr) :
    strLeB a b = true ↔
      a.k1 < b.k1 ∨ (a.k1 = b.k1 ∧ (a.k2 < b.k2 ∨ (a.k2 = b.k2 ∧ a.k3 ≤ b.k3))) := by
  simp [strLeB]

/-- Totality of the string-order comparator. -/
theorem strLeB_total (a b : TStr) : strLeB a b = true ∨ strLeB b a = true := by
  rw [strLeB_iff, strLeB_iff]
  omega

/-- Transitivity of the string-order comparator. -/
theorem strLeB_trans (a b c : TStr) (hab : strLeB a b = true) (hbc : strLeB b c = true) :
    strLeB a c = true := by
  rw [strLeB_iff] at hab hbc ⊢
  omega

instance : IsTotal Event descRel :=
  ⟨fun a b => strLeB_total (sortKey b) (sortKey a)⟩

instance : IsTrans Event descRel :=
  ⟨fun _ _ _ h1 h2 => strLeB_trans _ _ _ h2 h1⟩

/-- The reconciler's sort produces a list sorted descending by key. -/
theorem sortHistory_sorted (l : List Event) : List.Sorted descRel (sortHistory l) :=
  List.sorted_insertionSort descRel l

/-- The reconciler's sort is a permutation of its input. -/
theorem sortHistory_perm (l : List Event) : List.Perm (sortHistory l) l :=
  List.perm_insertionSort descRel l

/-- Every element of a merged history comes from the old history or is a
batch record (with source defaulted) that passed the cutoff filter. -/
theorem mem_mergePeerHistory {maxH : ℕ} {c : Option TStr} {h b : List Event} {x : Event}
    (hx : x ∈ mergePeerHistory maxH c h b) :
    x ∈ h ∨ (x ∈ b.map defaultSource ∧ isAfterCutoff c x = true) := by
  unfold mergePeerHistory at hx
  split at hx
  · exact Or.inl hx
  · split at hx
    · exact Or.inl hx
    · have h1 : x ∈ sortHistory (novelItems c h b ++ h) := List.mem_of_mem_take hx
      have h2 : x ∈ novelItems c h b ++ h := (sortHistory_perm _).mem_iff.mp h1
      rcases List.mem_append.mp h2 with h3 | h3
      · have h4 : x ∈ filteredBatch c b := (List.mem_filter.mp h3).1
        have h5 := List.mem_filter.mp h4
        exact Or.inr ⟨h5.1, h5.2⟩
      · exact Or.inl h3

/-- A merge where every cutoff-surviving batch record's key is already
known leaves the history unchanged (new_items is empty, so the code does
not even re-sort). -/
theorem mergePeerHistory_of_known (maxH : ℕ) (c : Option TStr) (h b : List Event)
    (hk : ∀ x ∈ filteredBatch c b, compositeKey x ∈ h.map compositeKey) :
    mergePeerHistory maxH c h b = h := by
  have hnov : novelItems c h b = [] := by
    unfold novelItems
    rw [List.filter_eq_nil_iff]
    intro x hxmem
    simpa using hk x hxmem
  unfold mergePeerHistory
  split
  · rfl
  · rw [if_pos]
    rw [hnov]
    rfl

/-- A merge never grows the history beyond the bound when it was within
the bound before. -/
theorem mergePeerHistory_length_le (maxH : ℕ) (c : Option TStr) (h b : List Event)
    (hh : h.length ≤ maxH) :
    (mergePeerHistory maxH c h b).length ≤ maxH := by
  unfold mergePeerHistory
  split
  · exact hh
  · split
    · exact hh
    · exact List.length_take_le maxH _

/-- A merge leaves the history sorted descending by key whenever it was
sorted before (the mutating branch fully re-sorts). -/
theorem mergePeerHistory_sorted (maxH : ℕ) (c : Option TStr) (h b : List Event)
    (hs : List.Sorted descRel h) :
    List.Sorted descRel (mergePeerHistory maxH c h b) := by
  unfold mergePeerHistory
  split
  · exact hs
  · split
    · exact hs
    · exact List.Pairwise.sublist (List.take_sublist _ _) (sortHistory_sorted _)

/-- The cutoff filter only inspects end_time and start_time, so the
setdefault of source does not change its verdict. -/
theorem isAfterCutoff_defaultSource (c : Option TStr) (ev : Event) :
    isAfterCutoff c (defaultSource ev) = isAfterCutoff c ev := rfl

/-- Computation of the cutoff filter when the record's end_time and the
cutoff are both well-formed timestamps. -/
theorem isAfterCutoff_iso_end (tc te : ℤ) (i j : ℕ) (ev : Event)
    (he : ev.end_time = some (.iso te j)) :
    isAfterCutoff (some (.iso tc i)) ev = decide (tc ≤ te) := by
  unfold isAfterCutoff truthyOr
  rw [he]
  rfl

/-- Computation of the cutoff filter when end_time is absent and
start_time is a well-formed timestamp. -/
theorem isAfterCutoff_iso_start (tc ts : ℤ) (i j : ℕ) (ev : Event)
    (he : ev.end_time = none) (hs : ev.start_time = some (.iso ts j)) :
    isAfterCutoff (some (.iso tc i)) ev = decide (tc ≤ ts) := by
  unfold isAfterCutoff truthyOr
  rw [he, hs]
  rfl

/-- The Python round at two decimals is nonnegative on nonnegative input. -/
theorem pyRound2Cs_nonneg (micros : ℤ) (h : 0 ≤ micros) : 0 ≤ pyRound2Cs micros := by
  unfold pyRound2Cs roundHalfEvenQR
  have hq : 0 ≤ Int.fdiv micros 10000 := Int.fdiv_nonneg h (by norm_num)
  split
  · exact hq
  · split
    · omega
    · split <;> omega

/-- Python l[-n:] is the whole list when the list is no longer than n. -/
theorem sliceLastN_of_le {l : List Event} {n : ℕ} (hn : n ≠ 0) (h : l.length ≤ n) :
    sliceLastN l n = l := by
  unfold sliceLastN
  rw [if_neg hn, Nat.sub_eq_zero_of_le h, List.drop_zero]

/-- Every reachable peer HISTORY respects the MAX_HISTORY bound. -/
theorem peerReach_length {h : List Event} (hr : PeerReach h) : h.length ≤ 200 := by
  induction hr with
  | init => simp
  | record h target proto st now pod _ ih =>
    unfold record_outage
    cases hst : fromisoformat st
    · exact ih
    · exact List.length_take_le 200 _
  | clear h _ _ => simp [peer_handle]

/-- The record built by log_disconnection_event sits at the front of the
new history (when the bound admits at least one record). -/
theorem log_disconnection_event_head (maxH : ℕ) (hmax : 1 ≤ maxH) (h : List Event)
    (n p : String) (t0 : ℤ) (sp : ℕ) (now : ℤ) (src : String) :
    (log_disconnection_event maxH h n p (.iso t0 sp) now src).head? =
      some ⟨some n, some p, some (.iso t0 0), some (.iso now 0),
            some (pyRound2Cs (now - t0)), some src, none⟩ := by
  obtain ⟨m, rfl⟩ : ∃ m, maxH = m + 1 := ⟨maxH - 1, by omega⟩
  simp only [log_disconnection_event, fromisoformat]
  rw [List.take_succ_cons]
  rfl

/-- The record built by record_outage sits at the front of the new
HISTORY. -/
theorem record_outage_head (h : List Event) (target proto : String) (t0 : ℤ) (sp : ℕ)
    (now : ℤ) (pod : String) :
    (record_outage h target proto (.iso t0 sp) now pod).head? =
      some ⟨some target, some proto, some (.iso t0 0), some (.iso now 0),
            some (pyRound2Cs (now - t0)), some "pod", some pod⟩ := by
  simp only [record_outage, fromisoformat]
  rw [show (200 : ℕ) = 199 + 1 from rfl, List.take_succ_cons]
  rfl

/-- C1: the claim says every link prober creates an OutageRecord exactly
once per maximal contiguous Error interval, at the moment the interval
ends (the error-to-connected recovery edge), with the duration of the
error interval, and that an interval that never recovers creates zero
records.  The ocp-peer WS prober contradicts this (code bug): in the run
below the link is connected during ticks 0..10000000, the error begins at
tick 10000000 and never recovers, yet exactly one record exists, created
at the moment the outage began, whose duration (10.00 s) spans the
preceding connected session.  The second conjunct shows the bastion HTTP
prober on the spec's own scenario (fail at 0 s, fail at 1 s, recover at
2 s) behaving as the claim states: one record, at the recovery edge,
duration 2.00 s. -/
theorem claim_C1 :
    ws_run "pod-a" "peer-2-svc" ("unknown", ([] : List Event))
        [.session 0 10000000, .failEarly 11000000 12000000]
      = ("disconnected",
         [⟨some "peer-2-svc", some "WS", some (.iso 0 0), some (.iso 10000000 0),
           some 1000, some "pod", some "pod-a"⟩])
  ∧ bastion_http_run 200 "peer-1-lb" (("unknown", TStr.iso (-1) 0), ([] : List Event))
        [(false, 0), (false, 1000000), (true, 2000000)]
      = (("connected", TStr.iso 2000000 0),
         [⟨some "peer-1-lb", some "HTTP", some (.iso 0 0), some (.iso 2000000 0),
           some 200, some "bastion", none⟩]) :=
  ⟨by decide, by decide⟩

/-- C2: handling a clear command sets the cutoff watermark to the current
time (overwriting any prior value), synchronously empties the local
history, returns the success response while the peer fan-out is only a
spawned background task whose outcome the response never depends on, and
a peer receiving the fanned-out clear simply empties its own history. -/
theorem claim_C2 : ∀ (s : BastionState) (now : ℤ) (h : List Event),
    (handle_clear_history s now).1.cutoff = some (TStr.iso now 0)
  ∧ (handle_clear_history s now).1.history = []
  ∧ (handle_clear_history s now).2.1 = [BgTask.fanoutClear]
  ∧ (handle_clear_history s now).2.2 = "history cleared"
  ∧ peer_handle h PeerReq.clearHistory = ([], PeerResp.clearOk) := by
  intro s now h
  exact ⟨rfl, rfl, rfl, rfl, rfl⟩

/-- C3: with no cutoff set every record passes the filter; with a cutoff
at instant tc, a record with a well-formed endTime te is kept exactly
when tc is at or before te (so one strictly before tc is dropped); when
endTime is absent the startTime is compared instead; and a record with
endTime strictly before the cutoff that is not already present is never
in the merged history. -/
theorem claim_C3 : ∀ (tc te ts : ℤ) (i j : ℕ) (ev : Event) (h b : List Event) (maxH : ℕ),
    isAfterCutoff none ev = true
  ∧ (ev.end_time = some (.iso te j) →
       isAfterCutoff (some (.iso tc i)) ev = decide (tc ≤ te))
  ∧ (ev.end_time = none → ev.start_time = some (.iso ts j) →
       isAfterCutoff (some (.iso tc i)) ev = decide (tc ≤ ts))
  ∧ (te < tc → ev.end_time = some (.iso te j) → ¬ ev ∈ h →
       ¬ ev ∈ mergePeerHistory maxH (some (.iso tc i)) h b) := by
  intro tc te ts i j ev h b maxH
  refine ⟨rfl, fun he => isAfterCutoff_iso_end tc te i j ev he,
    fun he hs => isAfterCutoff_iso_start tc ts i j ev he hs,
    fun hlt he hnot hmem => ?_⟩
  rcases mem_mergePeerHistory hmem with hh | ⟨_, hkeep⟩
  · exact hnot hh
  · rw [isAfterCutoff_iso_end tc te i j ev he] at hkeep
    simp at hkeep
    omega

/-- Witness for C3 at concrete inputs: with the cutoff at instant 10, a
record ending at instant 3 is rejected by the filter. -/
theorem claim_C3_witness :
    isAfterCutoff (some (TStr.iso 10 0))
      ⟨some "A", some "WS", some (TStr.iso 0 0), some (TStr.iso 3 0),
       some 300, some "pod", none⟩ = false := by
  have h := (claim_C3 10 3 0 0 0
    ⟨some "A", some "WS", some (TStr.iso 0 0), some (TStr.iso 3 0),
     some 300, some "pod", none⟩ [] [] 200).2.1 rfl
  simpa using h

/-- C4 as amended: merging a single remote record whose composite key is
already present leaves the history unchanged; more generally, a merge in
which every cutoff-surviving batch record's key is already known is a
no-op, and therefore merging an identical remote history twice is
idempotent provided every surviving batch record's key is still present
after the first merge.  (The unconditional form of the claim is refuted
by the counterexample: batches are not deduplicated internally, and
truncation can evict a batch record that ties with a surviving one.) -/
theorem claim_C4 : ∀ (maxH : ℕ) (c : Option TStr) (h b : List Event) (ev : Event),
    (compositeKey (defaultSource ev) ∈ h.map compositeKey →
        mergePeerHistory maxH c h [ev] = h)
  ∧ ((∀ x ∈ filteredBatch c b, compositeKey x ∈ h.map compositeKey) →
        mergePeerHistory maxH c h b = h)
  ∧ ((∀ x ∈ filteredBatch c b,
        compositeKey x ∈ (mergePeerHistory maxH c h b).map compositeKey) →
        mergePeerHistory maxH c (mergePeerHistory maxH c h b) b =
          mergePeerHistory maxH c h b) := by
  intro maxH c h b ev
  refine ⟨fun hk => ?_, fun hk => mergePeerHistory_of_known maxH c h b hk,
    fun hk => mergePeerHistory_of_known maxH c _ b hk⟩
  apply mergePeerHistory_of_known
  intro x hx
  have hx2 : x ∈ [ev].map defaultSource := (List.mem_filter.mp hx).1
  have hx3 : x = defaultSource ev := by simpa using hx2
  rw [hx3]
  exact hk

/-- Counterexample for C4 as stated: a batch containing the same record
twice merges into an empty history as two entries sharing one composite
key (refuting both the once-per-key invariant and the claim that a
second identical merge is a no-op would preserve it), and with
MAX_HISTORY = 1 a batch of two records tying on end_time merges once to
the first record but twice to the second, so merging the identical
history twice differs from merging it once. -/
theorem claim_C4_cex :
    mergePeerHistory 200 none []
        [⟨some "A", some "WS", some (.iso 0 0), some (.iso 1 0), some 100, some "pod", some "p"⟩,
         ⟨some "A", some "WS", some (.iso 0 0), some (.iso 1 0), some 100, some "pod", some "p"⟩]
      = [⟨some "A", some "WS", some (.iso 0 0), some (.iso 1 0), some 100, some "pod", some "p"⟩,
         ⟨some "A", some "WS", some (.iso 0 0), some (.iso 1 0), some 100, some "pod", some "p"⟩]
  ∧ ¬ ((mergePeerHistory 200 none []
        [⟨some "A", some "WS", some (.iso 0 0), some (.iso 1 0), some 100, some "pod", some "p"⟩,
         ⟨some "A", some "WS", some (.iso 0 0), some (.iso 1 0), some 100, some "pod", some "p"⟩]).map
          compositeKey).Nodup
  ∧ mergePeerHistory 1 none
        (mergePeerHistory 1 none []
          [⟨some "A", some "WS", some (.iso 0 0), some (.iso 5 0), some 500, some "pod", some "p"⟩,
           ⟨some "B", some "WS", some (.iso 0 0), some (.iso 5 0), some 500, some "pod", some "p"⟩])
        [⟨some "A", some "WS", some (.iso 0 0), some (.iso 5 0), some 500, some "pod", some "p"⟩,
         ⟨some "B", some "WS", some (.iso 0 0), some (.iso 5 0), some 500, some "pod", some "p"⟩]
      ≠ mergePeerHistory 1 none []
          [⟨some "A", some "WS", some (.iso 0 0), some (.iso 5 0), some 500, some "pod", some "p"⟩,
           ⟨some "B", some "WS", some (.iso 0 0), some (.iso 5 0), some 500, some "pod", some "p"⟩] :=
  ⟨by decide, by decide, by decide⟩

/-- Witness for C4 at a concrete input: re-merging an already-present
record leaves the history unchanged. -/
theorem claim_C4_witness :
    mergePeerHistory 200 none
        [⟨some "A", some "WS", some (.iso 0 0), some (.iso 1 0), some 100, some "pod", some "p"⟩]
        [⟨some "A", some "WS", some (.iso 0 0), some (.iso 1 0), some 100, some "pod", some "p"⟩]
      = [⟨some "A", some "WS", some (.iso 0 0), some (.iso 1 0), some 100, some "pod", some "p"⟩] :=
  (claim_C4 200 none
    [⟨some "A", some "WS", some (.iso 0 0), some (.iso 1 0), some 100, some "pod", some "p"⟩]
    []
    ⟨some "A", some "WS", some (.iso 0 0), some (.iso 1 0), some 100, some "pod", some "p"⟩).1
    (by decide)

/-- C5 as amended: both the local insertion and the merge preserve the
MAX_HISTORY length bound, and a merge always leaves the history sorted
descending by the end_time key (the mutating branch fully re-sorts and
truncates from the tail); a local insertion, however, prepends without
re-sorting, so descending order is preserved only when the new record's
end time is at least every existing sort key (the counterexample shows
the unconditional claim fails for local insertions). -/
theorem claim_C5 : ∀ (maxH : ℕ) (h : List Event) (name proto : String) (st : TStr)
    (now : ℤ) (src : String) (c : Option TStr) (b : List Event),
    (h.length ≤ maxH → (log_disconnection_event maxH h name proto st now src).length ≤ maxH)
  ∧ (h.length ≤ maxH → (mergePeerHistory maxH c h b).length ≤ maxH)
  ∧ (List.Sorted descRel h → List.Sorted descRel (mergePeerHistory maxH c h b))
  ∧ (List.Sorted descRel h →
       (∀ ev ∈ h, strLeB (sortKey ev) (TStr.iso now 0) = true) →
       List.Sorted descRel (log_disconnection_event maxH h name proto st now src)) := by
  intro maxH h name proto st now src c b
  refine ⟨fun hh => ?_, fun hh => mergePeerHistory_length_le maxH c h b hh,
    fun hs => mergePeerHistory_sorted maxH c h b hs, fun hs hle => ?_⟩
  · unfold log_disconnection_event
    cases hst : fromisoformat st
    · exact hh
    · exact List.length_take_le maxH _
  · unfold log_disconnection_event
    cases hst : fromisoformat st
    · exact hs
    · apply List.Pairwise.sublist (List.take_sublist _ _)
      exact List.sorted_cons.mpr ⟨fun ev hev => hle ev hev, hs⟩

/-- Counterexample for C5 as stated: a local insertion whose record ends
at tick 50000000 into a history whose sole record ends at tick 100000000
yields a history that is not ordered by endTime descending (the new,
older record sits in front), because log_disconnection_event never
re-sorts. -/
theorem claim_C5_cex :
    log_disconnection_event 200
        [⟨some "B", some "HTTP", some (.iso 90000000 0), some (.iso 100000000 0), some 1000,
          some "bastion", none⟩]
        "A" "HTTP" (.iso 0 0) 50000000 "bastion"
      = [⟨some "A", some "HTTP", some (.iso 0 0), some (.iso 50000000 0), some 5000,
          some "bastion", none⟩,
         ⟨some "B", some "HTTP", some (.iso 90000000 0), some (.iso 100000000 0), some 1000,
          some "bastion", none⟩]
  ∧ ¬ List.Sorted descRel
      (log_disconnection_event 200
        [⟨some "B", some "HTTP", some (.iso 90000000 0), some (.iso 100000000 0), some 1000,
          some "bastion", none⟩]
        "A" "HTTP" (.iso 0 0) 50000000 "bastion") :=
  ⟨by decide, by decide⟩

/-- Witness for C5 at concrete inputs, discharging each hypothesis. -/
theorem claim_C5_witness :
    (log_disconnection_event 200 [] "A" "HTTP" (TStr.iso 0 0) 1000000 "bastion").length ≤ 200
  ∧ (mergePeerHistory 200 none [] []).length ≤ 200
  ∧ List.Sorted descRel (mergePeerHistory 200 none [] [])
  ∧ List.Sorted descRel (log_disconnection_event 200 [] "A" "HTTP" (TStr.iso 0 0) 1000000 "bastion") := by
  have h := claim_C5 200 [] "A" "HTTP" (TStr.iso 0 0) 1000000 "bastion" none []
  exact ⟨h.1 (by decide), h.2.1 (by decide), h.2.2.1 List.sorted_nil,
    h.2.2.2 List.sorted_nil (fun ev hev => absurd hev (List.not_mem_nil ev))⟩

/-- C6 as amended: the stored duration is exactly the Python round at two
decimals of end minus start, with no clamping, in both recorders; it is
nonnegative whenever the start is not after the current time, but the
counterexample shows it is stored negative when the start lies in the
future. -/
theorem claim_C6 : ∀ (maxH : ℕ) (h h2 : List Event) (n p target pod src : String)
    (sp : ℕ) (t0 now : ℤ),
    (1 ≤ maxH →
      (log_disconnection_event maxH h n p (.iso t0 sp) now src).head? =
        some ⟨some n, some p, some (.iso t0 0), some (.iso now 0),
              some (pyRound2Cs (now - t0)), some src, none⟩)
  ∧ ((record_outage h2 target p (.iso t0 sp) now pod).head? =
        some ⟨some target, some p, some (.iso t0 0), some (.iso now 0),
              some (pyRound2Cs (now - t0)), some "pod", some pod⟩)
  ∧ (t0 ≤ now → 0 ≤ pyRound2Cs (now - t0)) := by
  intro maxH h h2 n p target pod src sp t0 now
  exact ⟨fun hmax => log_disconnection_event_head maxH hmax h n p t0 sp now src,
    record_outage_head h2 target p t0 sp now pod,
    fun hle => pyRound2Cs_nonneg _ (by omega)⟩

/-- Counterexample for C6 as stated: a record whose start time (tick
10000000) lies after the recording time (tick 5000000) is stored with
the negative duration -5.00 s, so the stored duration is not clamped to
be nonnegative. -/
theorem claim_C6_cex :
    (record_outage [] "t" "WS" (.iso 10000000 0) 5000000 "p").map (fun ev => ev.duration_cs)
      = [some (-500)]
  ∧ (log_disconnection_event 200 [] "t" "HTTP" (.iso 10000000 0) 5000000 "bastion").map
        (fun ev => ev.duration_cs)
      = [some (-500)]
  ∧ (-500 : ℤ) < 0 :=
  ⟨by decide, by decide, by decide⟩

/-- Witness for C6 at concrete inputs, discharging each hypothesis. -/
theorem claim_C6_witness :
    (log_disconnection_event 200 [] "A" "HTTP" (TStr.iso 0 5) 1000000 "bastion").head? =
      some ⟨some "A", some "HTTP", some (TStr.iso 0 0), some (TStr.iso 1000000 0),
            some (pyRound2Cs (1000000 - 0)), some "bastion", none⟩
  ∧ 0 ≤ pyRound2Cs (1000000 - 0) := by
  have h := claim_C6 200 [] [] "A" "HTTP" "t" "p" "bastion" 5 0 1000000
  exact ⟨h.1 (by omega), h.2.2 (by omega)⟩

/-- C7: a failed history fetch leaves the local history completely
untouched; a failed snapshot fetch stores the error placeholder under
that peer's identity while every other peer's snapshot entry is
unchanged; and a poll cycle never removes a snapshot entry, only
overwrites the polled peer's entry. -/
theorem claim_C7 : ∀ (s : BastionState) (peer url : String) (sf : FetchResult ℕ)
    (hf : FetchResult (List Event)) (maxH : ℕ) (e : String),
    (hf = FetchResult.fail e →
       (poll_cycle s peer url sf hf maxH).history = s.history)
  ∧ (sf = FetchResult.fail e →
       (poll_cycle s peer url sf hf maxH).internal_status peer =
         some (StatusDoc.errPlaceholder e url))
  ∧ (∀ k, k ≠ peer →
       (poll_cycle s peer url sf hf maxH).internal_status k = s.internal_status k)
  ∧ (∀ k, (poll_cycle s peer url sf hf maxH).internal_status k = none →
       s.internal_status k = none) := by
  intro s peer url sf hf maxH e
  refine ⟨fun hfe => ?_, fun hse => ?_, fun k hk => ?_, fun k hk => ?_⟩
  · subst hfe; rfl
  · subst hse; simp [poll_cycle]
  · simp [poll_cycle, hk]
  · by_cases hkp : k = peer
    · subst hkp; simp [poll_cycle] at hk
    · simpa [poll_cycle, hkp] using hk

/-- Witness for C7 at concrete inputs: both fetches fail, the history
stays empty and the placeholder is stored for the polled peer. -/
theorem claim_C7_witness :
    (poll_cycle ⟨[], none, fun _ => none⟩ "p1" "u" (FetchResult.fail "boom")
        (FetchResult.fail "down") 200).history = []
  ∧ (poll_cycle ⟨[], none, fun _ => none⟩ "p1" "u" (FetchResult.fail "boom")
        (FetchResult.fail "down") 200).internal_status "p1" =
      some (StatusDoc.errPlaceholder "boom" "u") := by
  have h1 := claim_C7 ⟨[], none, fun _ => none⟩ "p1" "u" (FetchResult.fail "boom")
    (FetchResult.fail "down") 200 "down"
  have h2 := claim_C7 ⟨[], none, fun _ => none⟩ "p1" "u" (FetchResult.fail "boom")
    (FetchResult.fail "down") 200 "boom"
  exact ⟨h1.1 rfl, h2.2.1 rfl⟩

/-- C8: every reachable peer HISTORY has at most MAX_HISTORY = 200
records, so the /history response, which serves the last-200 slice,
always equals the whole local history; and the most recent record always
sits at the front of the list after a recording. -/
theorem claim_C8 : ∀ h : List Event, PeerReach h →
    h.length ≤ 200
  ∧ peer_handle h PeerReq.getHistory = (h, PeerResp.historyDoc h)
  ∧ ∀ (target proto : String) (t0 : ℤ) (sp : ℕ) (now : ℤ) (pod : String),
      (record_outage h target proto (.iso t0 sp) now pod).head? =
        some ⟨some target, some proto, some (.iso t0 0), some (.iso now 0),
              some (pyRound2Cs (now - t0)), some "pod", some pod⟩ := by
  intro h hr
  have hlen := peerReach_length hr
  refine ⟨hlen, ?_, fun target proto t0 sp now pod =>
    record_outage_head h target proto t0 sp now pod⟩
  unfold peer_handle
  rw [sliceLastN_of_le (by norm_num) hlen]

/-- Witness for C8 at the initial (empty, reachable) history. -/
theorem claim_C8_witness :
    peer_handle [] PeerReq.getHistory = ([], PeerResp.historyDoc []) :=
  (claim_C8 [] PeerReach.init).2.1

/-- C9: in the reconciler's re-sorted output, a record with a missing
(or falsy) endTime never precedes a record whose endTime is present, so
open-ended records rank as least recent; and among records carrying
canonical well-formed endTime values the order is descending by the end
instant. -/
theorem claim_C9 : ∀ l : List Event,
    List.Pairwise (fun a b =>
        (sortKey a = TStr.empty → sortKey b = TStr.empty)
      ∧ ∀ ta tb : ℤ, sortKey a = TStr.iso ta 0 → sortKey b = TStr.iso tb 0 → tb ≤ ta)
      (sortHistory l) := by
  intro l
  refine List.Pairwise.imp ?_ (sortHistory_sorted l)
  intro a b hab
  unfold descRel at hab
  constructor
  · intro ha
    cases hb : sortKey b with
    | empty => rfl
    | iso t i2 =>
      rw [ha, hb, strLeB_iff] at hab
      simp [TStr.k1] at hab
    | malformed nn =>
      rw [ha, hb, strLeB_iff] at hab
      simp [TStr.k1] at hab
  · intro ta tb ha hb
    rw [ha, hb, strLeB_iff] at hab
    simp [TStr.k1, TStr.k2, TStr.k3] at hab
    omega

/-- C10: the cutoff filter fails open.  With a cutoff set, a record with
both end_time and start_time absent (or falsy) is kept; a record whose
effective timestamp string does not parse is kept; an unparseable stored
cutoff keeps every record; and such a kept record is actually merged
into the history. -/
theorem claim_C10 : ∀ (tc : ℤ) (i m : ℕ) (ev : Event) (maxH : ℕ),
    (truthyOr ev.end_time ev.start_time = none →
       isAfterCutoff (some (.iso tc i)) ev = true)
  ∧ (truthyOr ev.end_time ev.start_time = some TStr.empty →
       isAfterCutoff (some (.iso tc i)) ev = true)
  ∧ (truthyOr ev.end_time ev.start_time = some (.malformed m) →
       isAfterCutoff (some (.iso tc i)) ev = true)
  ∧ isAfterCutoff (some (.malformed m)) ev = true
  ∧ (1 ≤ maxH → isAfterCutoff (some (.iso tc i)) ev = true →
       mergePeerHistory maxH (some (.iso tc i)) [] [ev] = [defaultSource ev]) := by
  intro tc i m ev maxH
  refine ⟨fun ht => ?_, fun ht => ?_, fun ht => ?_, ?_, fun hmax hkeep => ?_⟩
  · unfold isAfterCutoff
    rw [ht]
  · unfold isAfterCutoff
    rw [ht]
  · unfold isAfterCutoff
    rw [ht]
    rfl
  · unfold isAfterCutoff
    cases htv : truthyOr ev.end_time ev.start_time with
    | none => rfl
    | some et => cases et <;> rfl
  · have hkdev : isAfterCutoff (some (.iso tc i)) (defaultSource ev) = true := by
      rw [isAfterCutoff_defaultSource]
      exact hkeep
    obtain ⟨mm, rfl⟩ : ∃ mm, maxH = mm + 1 := ⟨maxH - 1, by omega⟩
    simp [mergePeerHistory, filteredBatch, novelItems, sortHistory, hkdev,
      List.take_succ_cons]

/-- Witness for C10 at a concrete input: with the cutoff at instant 10, a
record with no timestamps at all passes the filter and is merged. -/
theorem claim_C10_witness :
    isAfterCutoff (some (TStr.iso 10 0))
      ⟨some "A", some "WS", none, none, none, none, none⟩ = true
  ∧ mergePeerHistory 200 (some (TStr.iso 10 0)) []
      [⟨some "A", some "WS", none, none, none, none, none⟩]
    = [⟨some "A", some "WS", none, none, none, some "pod", none⟩] := by
  have h := claim_C10 10 0 0 ⟨some "A", some "WS", none, none, none, none, none⟩ 200
  exact ⟨h.1 rfl, h.2.2.2.2 (by omega) (h.1 rfl)⟩

end MD
